import Mathlib

/-!
Verification of the S2-cell tile bounding volume (a 6-plane k-DOP) from
Source/Scene/TileBoundingS2Cell.js.

The JavaScript source is embedded shallowly over exact rationals:
every Cartesian3/Plane operation becomes a function on rational triples.
Floating-point doubles are modelled by exact rational arithmetic.
The source function Cartesian3.distance returns a square root, which is
irrational in general; the embedding therefore works with squared
Euclidean distances throughout.  Squaring is strictly monotone on
nonnegative reals, so every comparison, equality and strict inequality
of distances in the source is reflected faithfully by the corresponding
statement about squared distances.
-/

/-- Cartesian3 (Source/Core/Cartesian3.js): a 3-component vector, with
doubles modelled as exact rationals. -/
@[ext]
structure Cartesian3 where
  x : ℚ
  y : ℚ
  z : ℚ
  deriving DecidableEq

namespace Cartesian3

/-- Cartesian3.add. -/
def add (a b : Cartesian3) : Cartesian3 :=
  ⟨a.x + b.x, a.y + b.y, a.z + b.z⟩

/-- Cartesian3.subtract. -/
def subtract (a b : Cartesian3) : Cartesian3 :=
  ⟨a.x - b.x, a.y - b.y, a.z - b.z⟩

/-- Cartesian3.negate. -/
def negate (a : Cartesian3) : Cartesian3 :=
  ⟨-a.x, -a.y, -a.z⟩

/-- Cartesian3.multiplyByScalar. -/
def multiplyByScalar (a : Cartesian3) (s : ℚ) : Cartesian3 :=
  ⟨a.x * s, a.y * s, a.z * s⟩

/-- Cartesian3.dot. -/
def dot (a b : Cartesian3) : ℚ :=
  a.x * b.x + a.y * b.y + a.z * b.z

/-- Cartesian3.cross. -/
def cross (a b : Cartesian3) : Cartesian3 :=
  ⟨a.y * b.z - a.z * b.y, a.z * b.x - a.x * b.z, a.x * b.y - a.y * b.x⟩

/-- Square of Cartesian3.distance (the source value is the square root of
this; see the file comment for why distances are squared here). -/
def distanceSquared (a b : Cartesian3) : ℚ :=
  (a.x - b.x) ^ 2 + (a.y - b.y) ^ 2 + (a.z - b.z) ^ 2

end Cartesian3

/-- Plane (Source/Core/Plane.js): normal and distance, with a point p on
the outward side iff dot(normal, p) + distance > 0. -/
structure Plane3 where
  normal : Cartesian3
  distance : ℚ
  deriving DecidableEq

namespace Plane3

/-- Plane.fromPointNormal: the plane through a point with a given normal. -/
def fromPointNormal (point normal : Cartesian3) : Plane3 :=
  ⟨normal, -(Cartesian3.dot normal point)⟩

/-- Plane.getPointDistance: the signed distance dot(normal, p) + distance. -/
def getPointDistance (plane : Plane3) (point : Cartesian3) : ℚ :=
  Cartesian3.dot plane.normal point + plane.distance

/-- Plane.projectPointOntoPlane: point minus normal scaled by the signed
distance. -/
def projectPointOntoPlane (plane : Plane3) (point : Cartesian3) : Cartesian3 :=
  Cartesian3.subtract point
    (Cartesian3.multiplyByScalar plane.normal (getPointDistance plane point))

end Plane3

/-- CesiumMath.EPSILON14, modelled as the exact rational 10 ^ (-14). -/
def EPSILON14 : ℚ := 1 / 10 ^ 14

/-- CesiumMath.greaterThan(left, right, absoluteEpsilon):
left - right > absoluteEpsilon. -/
def greaterThan (left right absoluteEpsilon : ℚ) : Prop :=
  left - right > absoluteEpsilon

instance (a b e : ℚ) : Decidable (greaterThan a b e) :=
  inferInstanceAs (Decidable (a - b > e))

/-- Matrix3.determinant of the matrix whose rows are r0, r1, r2 (the
matrix built in computeIntersection from the three plane normals;
the determinant is invariant under transposition, so row/column order
does not matter). -/
def det3 (r0 r1 r2 : Cartesian3) : ℚ :=
  r0.x * (r1.y * r2.z - r1.z * r2.y)
    - r0.y * (r1.x * r2.z - r1.z * r2.x)
    + r0.z * (r1.x * r2.y - r1.y * r2.x)

/-- The accumulated vector s of computeIntersection (lines 242-278):
sum over k of cross(normal_(k+1), normal_(k+2)) scaled by dot(x_k,
normal_k), with x_k = -distance_k * normal_k. -/
def intersectionSum (p0 p1 p2 : Plane3) : Cartesian3 :=
  let n0 := p0.normal
  let n1 := p1.normal
  let n2 := p2.normal
  let x0 := Cartesian3.multiplyByScalar p0.normal (-p0.distance)
  let x1 := Cartesian3.multiplyByScalar p1.normal (-p1.distance)
  let x2 := Cartesian3.multiplyByScalar p2.normal (-p2.distance)
  let f0 := Cartesian3.multiplyByScalar (Cartesian3.cross n1 n2) (Cartesian3.dot x0 n0)
  let f1 := Cartesian3.multiplyByScalar (Cartesian3.cross n2 n0) (Cartesian3.dot x1 n1)
  let f2 := Cartesian3.multiplyByScalar (Cartesian3.cross n0 n1) (Cartesian3.dot x2 n2)
  Cartesian3.add (Cartesian3.add f0 f1) f2

/-- computeIntersection (lines 237-284): intersection of 3 planes by the
closed Cramer-style formula, the accumulated vector divided componentwise
by the determinant of the normal matrix. -/
def computeIntersection (p0 p1 p2 : Plane3) : Cartesian3 :=
  let determinant := det3 p0.normal p1.normal p2.normal
  let s := intersectionSum p0 p1 p2
  ⟨s.x / determinant, s.y / determinant, s.z / determinant⟩

/-- computeVertices (lines 289-306): vertex i (i < 4) is the intersection
of the top plane with side planes (i+3)%4 and i; vertex 4+i is the
intersection of the bottom plane with the same two side planes. -/
def computeVertices (boundingPlanes : Fin 6 → Plane3) : Fin 8 → Cartesian3 :=
  fun k =>
    let i := k.val % 4
    if k.val < 4 then
      computeIntersection (boundingPlanes 0)
        (boundingPlanes ⟨2 + (i + 3) % 4, by omega⟩)
        (boundingPlanes ⟨2 + i % 4, by omega⟩)
    else
      computeIntersection (boundingPlanes 1)
        (boundingPlanes ⟨2 + (i + 3) % 4, by omega⟩)
        (boundingPlanes ⟨2 + i % 4, by omega⟩)

/-- Bottom-plane computation of computeBoundingPlanes (lines 165-195).
The four cell corners lifted to minimumHeight are produced by external
ellipsoid conversions (cartesianToCartographic / cartographicToCartesian),
so the lifted corners are taken here as inputs.  The loop keeps the most
negative signed distance of a lifted corner to the top plane (starting
from 0), then the cloned plane's normal is negated and its offset is
shifted by that amount. -/
def bottomMaxDistance (topPlane : Plane3) (liftedCorners : Fin 4 → Cartesian3) : ℚ :=
  (([0, 1, 2, 3] : List (Fin 4)).map
      (fun i => Plane3.getPointDistance topPlane (liftedCorners i))).foldl
    (fun acc distance => if distance < acc then distance else acc) 0

/-- Continuation of the bottom-plane computation: clone the top plane,
negate its normal and shift its offset by the kept distance
(lines 188-195). -/
def computeBottomPlane (topPlane : Plane3) (liftedCorners : Fin 4 → Cartesian3) : Plane3 :=
  { normal := Cartesian3.negate topPlane.normal
    distance := topPlane.distance * (-1) + bottomMaxDistance topPlane liftedCorners }

/-- computeEdgeNormals (lines 314-334) without the final
Cartesian3.normalize call: edge normal i of a face is the cross product
of the face plane's normal with vertices[i] - vertices[(i+1)%4].
Normalization only rescales each edge normal by a positive factor (an
irrational one in general), and the query code consumes edge normals
exclusively through the SIGN of a signed distance, which rescaling
preserves.  For the concrete axis-aligned volume used in the witnesses
below every cross product here is already unit length, so there
normalization is the identity (checked by edgeNormals_unit_boxVol). -/
def computeEdgeNormalsRaw (plane : Plane3) (vertices : Fin 4 → Cartesian3) : Fin 4 → Cartesian3 :=
  fun i =>
    Cartesian3.cross plane.normal
      (Cartesian3.subtract (vertices i) (vertices ⟨(i.val + 1) % 4, by omega⟩))

/-- The 4-vertex quad of face j, exactly as the constructor builds it
(lines 70-86): face 0 gets vertices[0..3], face 1 gets vertices[4..7],
and side face 2+i gets [vertices[i%4], vertices[4+i], vertices[4+(i+1)%4],
vertices[(i+1)%4]].  The same quads are rebuilt inside distanceToCamera
(lines 462, 473, 490-495). -/
def faceQuad (vertices : Fin 8 → Cartesian3) (j : Fin 6) : Fin 4 → Cartesian3 :=
  if j = 0 then
    fun m => vertices ⟨m.val, by omega⟩
  else if j = 1 then
    fun m => vertices ⟨4 + m.val, by omega⟩
  else
    let i := (j.val - 2) % 4
    fun m =>
      match m with
      | 0 => vertices ⟨i % 4, by omega⟩
      | 1 => vertices ⟨4 + i, by omega⟩
      | 2 => vertices ⟨4 + (i + 1) % 4, by omega⟩
      | 3 => vertices ⟨(i + 1) % 4, by omega⟩

/-- Edge normals of all six faces as the constructor precomputes them
(lines 69-86), modulo the normalization rescaling discussed at
computeEdgeNormalsRaw. -/
def constructorEdgeNormals (planes : Fin 6 → Plane3) (vertices : Fin 8 → Cartesian3) :
    Fin 6 → Fin 4 → Cartesian3 :=
  fun j => computeEdgeNormalsRaw (planes j) (faceQuad vertices j)

/-- The frozen data of a TileBoundingS2Cell: the fields _boundingPlanes
(index 0 = top, 1 = bottom, 2..5 = sides), _vertices (0..3 top corners,
4..7 the corresponding bottom corners) and _edgeNormals, all built once
by the constructor and then only read. -/
structure TileBoundingS2Cell where
  boundingPlanes : Fin 6 → Plane3
  vertices : Fin 8 → Cartesian3
  edgeNormals : Fin 6 → Fin 4 → Cartesian3

/-- The working face data held in the local variables vertices /
edgeNormals / rotation of distanceToCamera (lines 450-452): each branch
that pushes a plane index also overwrites all three. -/
structure FaceData where
  vertices : Fin 4 → Cartesian3
  edgeNormals : Fin 4 → Cartesian3
  rotation : ℚ

/-- The face data distanceToCamera installs when plane j is the last
violated plane: rotation is -1 for the top face and the sides, +1 for the
bottom face (lines 460-475 and 489-497). -/
def faceDataOf (cell : TileBoundingS2Cell) (j : Fin 6) : FaceData :=
  if j = 0 then
    ⟨faceQuad cell.vertices 0, cell.edgeNormals 0, -1⟩
  else if j = 1 then
    ⟨faceQuad cell.vertices 1, cell.edgeNormals 1, 1⟩
  else
    ⟨faceQuad cell.vertices j, cell.edgeNormals j, -1⟩

/-- The selected-plane list of distanceToCamera (lines 449-499): push 0
if the top plane is violated beyond EPSILON14, otherwise push 1 if the
bottom plane is; then push every violated side plane in ascending order
(the side loop is unrolled here).  The working FaceData after the loop is
faceDataOf applied to the LAST element of this list, because every push
overwrites the face locals. -/
def selectedPlaneIndices (cell : TileBoundingS2Cell) (point : Cartesian3) : List (Fin 6) :=
  (if greaterThan (Plane3.getPointDistance (cell.boundingPlanes 0) point) 0 EPSILON14 then
      [(0 : Fin 6)]
    else if greaterThan (Plane3.getPointDistance (cell.boundingPlanes 1) point) 0 EPSILON14 then
      [(1 : Fin 6)]
    else [])
  ++ (if greaterThan (Plane3.getPointDistance (cell.boundingPlanes 2) point) 0 EPSILON14 then
      [(2 : Fin 6)] else [])
  ++ (if greaterThan (Plane3.getPointDistance (cell.boundingPlanes 3) point) 0 EPSILON14 then
      [(3 : Fin 6)] else [])
  ++ (if greaterThan (Plane3.getPointDistance (cell.boundingPlanes 4) point) 0 EPSILON14 then
      [(4 : Fin 6)] else [])
  ++ (if greaterThan (Plane3.getPointDistance (cell.boundingPlanes 5) point) 0 EPSILON14 then
      [(5 : Fin 6)] else [])

/-- closestPointLineSegment (lines 573-593). -/
def closestPointLineSegment (p l0 l1 : Cartesian3) : Cartesian3 :=
  let d := Cartesian3.subtract l1 l0
  let pL0 := Cartesian3.subtract p l0
  let t := Cartesian3.dot d pL0
  if t ≤ 0 then l0
  else
    let dMag := Cartesian3.dot d d
    if t ≥ dMag then l1
    else
      let s := t / dMag
      ⟨(1 - s) * l0.x + s * l1.x, (1 - s) * l0.y + s * l1.y, (1 - s) * l0.z + s * l1.z⟩

/-- closestPointPolygon (lines 601-636).  The running minimum
(minDistance, closestPoint) starts undefined (Number.MAX_VALUE in the
source) and is modelled by an Option; candidates are compared by squared
distance, which orders them exactly as the source's Euclidean distances
do.  The plane parameter is accepted and ignored, as in the source. -/
def closestPointPolygonStep (p : Cartesian3) (vertices : Fin 4 → Cartesian3)
    (edgeNormals : Fin 4 → Cartesian3) (dir : ℚ)
    (acc : Option (ℚ × Cartesian3)) (i : Fin 4) : Option (ℚ × Cartesian3) :=
  let edgePlane := Plane3.fromPointNormal (vertices i) (edgeNormals i)
  let edgePlaneDistance := Plane3.getPointDistance edgePlane p
  if dir * edgePlaneDistance > 0 then acc
  else
    let closestPointOnEdge :=
      closestPointLineSegment p (vertices i) (vertices ⟨(i.val + 1) % 4, by omega⟩)
    let distance := Cartesian3.distanceSquared p closestPointOnEdge
    match acc with
    | none => some (distance, closestPointOnEdge)
    | some (minDistance, closestPoint) =>
        if distance < minDistance then some (distance, closestPointOnEdge)
        else some (minDistance, closestPoint)

/-- Body of closestPointPolygon: fold the per-edge step over the four
edges and return the tracked closest point, or p itself when no edge was
tested. -/
def closestPointPolygon (p : Cartesian3) (vertices : Fin 4 → Cartesian3)
    (plane : Plane3) (edgeNormals : Fin 4 → Cartesian3) (dir : ℚ) : Cartesian3 :=
  match ([0, 1, 2, 3] : List (Fin 4)).foldl (closestPointPolygonStep p vertices edgeNormals dir)
      none with
  | none => p
  | some (_, closestPoint) => closestPoint

/-- Outcome of distanceToCamera (lines 442-565).  distZero is the early
return 0.0 when no plane is selected; toPoint q stands for the source
returning Cartesian3.distance(q, point); typeError is the more-than-3-
selected branch (lines 538-551): there the source calls
closestPointPolygon with edgeNormals[0] - a single Cartesian3 taken from
the LAST violated side face's edge-normal array - where an array is
expected, so the first loop iteration evaluates
Plane.fromPointNormal(vertices[0], undefined), which throws (a TypeError
reading undefined.x in release builds, a DeveloperError from the
parameter check in debug builds).  That branch also projects onto
this._boundingPlanes[0], the TOP plane, although its own comment (line
440) says the bottom plane is used. -/
inductive DistanceResult
  | distZero
  | toPoint (q : Cartesian3)
  | typeError
  deriving DecidableEq

/-- Case analysis of distanceToCamera on the selected-plane list (lines
501-564), with each returned distance recorded as the point it is
measured to. -/
def distanceToCameraCase (cell : TileBoundingS2Cell) (point : Cartesian3) : DistanceResult :=
  match selectedPlaneIndices cell point with
  | [] => DistanceResult.distZero
  | [s0] =>
    let fd := faceDataOf cell s0
    let selectedPlane := cell.boundingPlanes s0
    DistanceResult.toPoint
      (closestPointPolygon (Plane3.projectPointOntoPlane selectedPlane point)
        fd.vertices selectedPlane fd.edgeNormals fd.rotation)
  | [s0, s1] =>
    let edge : Cartesian3 × Cartesian3 :=
      if s0 = 0 then
        (cell.vertices ⟨(s1.val + 3) % 4, by omega⟩,
         cell.vertices ⟨(s1.val + 2) % 4, by omega⟩)
      else if s0 = 1 then
        (cell.vertices ⟨s1.val % 4, by omega⟩,
         cell.vertices ⟨(s1.val + 1) % 4, by omega⟩)
      else
        (cell.vertices ⟨4 + (s0.val + 3) % 4, by omega⟩,
         cell.vertices ⟨(s0.val + 3) % 4, by omega⟩)
    DistanceResult.toPoint (closestPointLineSegment point edge.1 edge.2)
  | [s0, s1, _] =>
    if s0 = 0 then
      DistanceResult.toPoint (cell.vertices ⟨s1.val % 4, by omega⟩)
    else
      DistanceResult.toPoint (cell.vertices ⟨4 + (s0.val + 1) % 4, by omega⟩)
  | _ => DistanceResult.typeError

/-- The squared value of what distanceToCamera returns: some 0 for the
inside case, the squared distance from the query point to the resolved
nearest point otherwise, and none when the more-than-3-selected branch
throws (see DistanceResult.typeError). -/
def distanceToCameraSquared (cell : TileBoundingS2Cell) (point : Cartesian3) : Option ℚ :=
  match distanceToCameraCase cell point with
  | DistanceResult.distZero => some 0
  | DistanceResult.toPoint q => some (Cartesian3.distanceSquared q point)
  | DistanceResult.typeError => none

/-- Intersect (Source/Core/Intersect.js). -/
inductive Intersect
  | OUTSIDE
  | INTERSECTING
  | INSIDE
  deriving DecidableEq

/-- The list [vertices 0, ..., vertices 7] iterated by intersectPlane. -/
def vertexList (cell : TileBoundingS2Cell) : List Cartesian3 :=
  [cell.vertices 0, cell.vertices 1, cell.vertices 2, cell.vertices 3,
   cell.vertices 4, cell.vertices 5, cell.vertices 6, cell.vertices 7]

/-- intersectPlane (lines 647-670): count the vertices with negative
signed distance and the rest (zero counts as positive); all 8 positive
gives INSIDE, all 8 negative gives OUTSIDE, anything else INTERSECTING. -/
def intersectPlane (cell : TileBoundingS2Cell) (plane : Plane3) : Intersect :=
  let plusCount :=
    (vertexList cell).countP
      (fun v => decide (¬ Cartesian3.dot plane.normal v + plane.distance < 0))
  let negCount :=
    (vertexList cell).countP
      (fun v => decide (Cartesian3.dot plane.normal v + plane.distance < 0))
  if plusCount = 8 then Intersect.INSIDE
  else if negCount = 8 then Intersect.OUTSIDE
  else Intersect.INTERSECTING


/-- A concrete well-formed instance: the unit-cube volume whose top plane
is z = 1 (outward normal +z), bottom plane z = 0 (outward normal -z) and
whose four side planes follow the cell corners (0,0), (1,0), (1,1), (0,1)
in cyclic order, each with outward normal.  It is the concrete input of
the witnesses and counterexamples below. -/
def boxPlanes (j : Fin 6) : Plane3 :=
  ([⟨⟨0, 0, 1⟩, -1⟩, ⟨⟨0, 0, -1⟩, 0⟩, ⟨⟨0, -1, 0⟩, 0⟩,
    ⟨⟨1, 0, 0⟩, -1⟩, ⟨⟨0, 1, 0⟩, -1⟩, ⟨⟨-1, 0, 0⟩, 0⟩] : List Plane3).get ⟨j.val, j.isLt⟩

/-- The eight box vertices, written out literally; boxVol_matches_constructor
checks they are exactly computeVertices boxPlanes. -/
def boxVertices (k : Fin 8) : Cartesian3 :=
  ([⟨0, 0, 1⟩, ⟨1, 0, 1⟩, ⟨1, 1, 1⟩, ⟨0, 1, 1⟩,
    ⟨0, 0, 0⟩, ⟨1, 0, 0⟩, ⟨1, 1, 0⟩, ⟨0, 1, 0⟩] : List Cartesian3).get ⟨k.val, k.isLt⟩

/-- The 24 box edge normals, written out literally; boxVol_matches_constructor
checks they are exactly the constructor's cross products, and they are all
unit vectors, so the normalization omitted in computeEdgeNormalsRaw is the
identity on them. -/
def boxEdgeNormals (j : Fin 6) (i : Fin 4) : Cartesian3 :=
  ([⟨0, -1, 0⟩, ⟨1, 0, 0⟩, ⟨0, 1, 0⟩, ⟨-1, 0, 0⟩,
    ⟨0, 1, 0⟩, ⟨-1, 0, 0⟩, ⟨0, -1, 0⟩, ⟨1, 0, 0⟩,
    ⟨-1, 0, 0⟩, ⟨0, 0, -1⟩, ⟨1, 0, 0⟩, ⟨0, 0, 1⟩,
    ⟨0, -1, 0⟩, ⟨0, 0, -1⟩, ⟨0, 1, 0⟩, ⟨0, 0, 1⟩,
    ⟨1, 0, 0⟩, ⟨0, 0, -1⟩, ⟨-1, 0, 0⟩, ⟨0, 0, 1⟩,
    ⟨0, 1, 0⟩, ⟨0, 0, -1⟩, ⟨0, -1, 0⟩, ⟨0, 0, 1⟩] : List Cartesian3).getD
    (j.val * 4 + i.val) ⟨0, 0, 0⟩

/-- The box volume with its constructor-derived data. -/
def boxVol : TileBoundingS2Cell :=
  { boundingPlanes := boxPlanes
    vertices := boxVertices
    edgeNormals := boxEdgeNormals }

set_option maxHeartbeats 1000000 in
/-- The literal box data is exactly what the constructor computes from
boxPlanes: the vertices are computeVertices boxPlanes, the edge normals
are the constructor's per-face cross products, and every edge normal is
a unit vector (so the omitted normalization is the identity here). -/
theorem boxVol_matches_constructor :
    (∀ k, boxVol.vertices k = computeVertices boxPlanes k)
    ∧ (∀ j i, boxVol.edgeNormals j i = constructorEdgeNormals boxPlanes boxVertices j i)
    ∧ (∀ j i, Cartesian3.dot (boxVol.edgeNormals j i) (boxVol.edgeNormals j i) = 1) := by
  refine ⟨fun k => ?_, fun j i => ?_, fun j i => ?_⟩
  · fin_cases k <;>
      norm_num [boxVol, boxVertices, boxPlanes, computeVertices, computeIntersection, intersectionSum, det3,
        Cartesian3.cross, Cartesian3.subtract, Cartesian3.multiplyByScalar, Cartesian3.add,
        Cartesian3.dot, List.get]
  · fin_cases j <;> fin_cases i <;>
      norm_num [boxVol, boxEdgeNormals, boxVertices, boxPlanes, constructorEdgeNormals,
        computeEdgeNormalsRaw, faceQuad, Fin.ext_iff, Cartesian3.cross, Cartesian3.subtract,
        List.get]
  · fin_cases j <;> fin_cases i <;>
      norm_num [boxVol, boxEdgeNormals, Cartesian3.dot, List.get]

/-- A concrete volume whose four side planes tilt outward going down, the
shape the source's case-IV comment (lines 419-440) describes: far enough
below the volume a point violates the bottom plane and all four side
planes at once, so more than 3 planes are selected. -/
def frustumPlanes (j : Fin 6) : Plane3 :=
  ([⟨⟨0, 0, 1⟩, -1⟩, ⟨⟨0, 0, -1⟩, 0⟩,
    ⟨⟨0, -3/5, -4/5⟩, 0⟩, ⟨⟨3/5, 0, -4/5⟩, -3/5⟩,
    ⟨⟨0, 3/5, -4/5⟩, -3/5⟩, ⟨⟨-3/5, 0, -4/5⟩, 0⟩] : List Plane3).get ⟨j.val, j.isLt⟩

/-- The frustum volume, with vertices and edge normals derived from its
planes exactly like boxVol's.  The theorem about it exercises only the
more-than-3-selected branch, which fails before reading any vertex or
edge normal, so the normalization omitted from its stored edge normals
(they are non-unit cross products) is irrelevant there. -/
def frustumVol : TileBoundingS2Cell :=
  { boundingPlanes := frustumPlanes
    vertices := computeVertices frustumPlanes
    edgeNormals := constructorEdgeNormals frustumPlanes (computeVertices frustumPlanes) }

/-- Transport of a universally quantified property between the iterated
vertex list of intersectPlane and the vertex indices. -/
theorem forall_mem_vertexList (cell : TileBoundingS2Cell) (P : Cartesian3 → Prop) :
    (∀ v ∈ vertexList cell, P v) ↔ ∀ i : Fin 8, P (cell.vertices i) := by
  constructor
  · intro h i
    fin_cases i <;> exact h _ (by simp [vertexList])
  · intro h v hv
    simp only [vertexList, List.mem_cons, List.not_mem_nil, or_false] at hv
    rcases hv with rfl | rfl | rfl | rfl | rfl | rfl | rfl | rfl <;>
      first
        | exact h 0 | exact h 1 | exact h 2 | exact h 3
        | exact h 4 | exact h 5 | exact h 6 | exact h 7

/-- C4: intersectPlane returns INSIDE exactly when every one of the 8
stored vertices has signed distance dot(plane.normal, vertex) +
plane.distance at least 0 (zero counts as the normal side), OUTSIDE
exactly when every vertex has signed distance strictly below 0, and
INTERSECTING in every other case. -/
theorem c4_intersectPlane_vertex_vote (cell : TileBoundingS2Cell) (plane : Plane3) :
    (intersectPlane cell plane = Intersect.INSIDE ↔
      ∀ i : Fin 8, 0 ≤ Plane3.getPointDistance plane (cell.vertices i))
    ∧ (intersectPlane cell plane = Intersect.OUTSIDE ↔
      ∀ i : Fin 8, Plane3.getPointDistance plane (cell.vertices i) < 0)
    ∧ (intersectPlane cell plane = Intersect.INTERSECTING ↔
      ((∃ i : Fin 8, Plane3.getPointDistance plane (cell.vertices i) < 0)
        ∧ ∃ i : Fin 8, 0 ≤ Plane3.getPointDistance plane (cell.vertices i))) := by
  have hlen : (vertexList cell).length = 8 := rfl
  have hplusList :
      ((vertexList cell).countP
          (fun v => decide (¬ Cartesian3.dot plane.normal v + plane.distance < 0)) = 8)
      ↔ ∀ v ∈ vertexList cell, ¬ Cartesian3.dot plane.normal v + plane.distance < 0 := by
    rw [show (8 : ℕ) = (vertexList cell).length from rfl, List.countP_eq_length]
    simp only [decide_eq_true_eq]
  have hplus :
      ((vertexList cell).countP
          (fun v => decide (¬ Cartesian3.dot plane.normal v + plane.distance < 0)) = 8)
      ↔ ∀ i : Fin 8, 0 ≤ Plane3.getPointDistance plane (cell.vertices i) := by
    rw [hplusList,
      forall_mem_vertexList cell
        (fun v => ¬ Cartesian3.dot plane.normal v + plane.distance < 0)]
    simp only [Plane3.getPointDistance, not_lt]
  have hnegList :
      ((vertexList cell).countP
          (fun v => decide (Cartesian3.dot plane.normal v + plane.distance < 0)) = 8)
      ↔ ∀ v ∈ vertexList cell, Cartesian3.dot plane.normal v + plane.distance < 0 := by
    rw [show (8 : ℕ) = (vertexList cell).length from rfl, List.countP_eq_length]
    simp only [decide_eq_true_eq]
  have hneg :
      ((vertexList cell).countP
          (fun v => decide (Cartesian3.dot plane.normal v + plane.distance < 0)) = 8)
      ↔ ∀ i : Fin 8, Plane3.getPointDistance plane (cell.vertices i) < 0 := by
    rw [hnegList,
      forall_mem_vertexList cell
        (fun v => Cartesian3.dot plane.normal v + plane.distance < 0)]
    simp only [Plane3.getPointDistance]
  by_cases h1 :
      (vertexList cell).countP
        (fun v => decide (¬ Cartesian3.dot plane.normal v + plane.distance < 0)) = 8
  · have hins : intersectPlane cell plane = Intersect.INSIDE := by
      simp only [intersectPlane]
      rw [if_pos h1]
    have hall := hplus.mp h1
    refine ⟨⟨fun _ => hall, fun _ => hins⟩, ⟨?_, ?_⟩, ⟨?_, ?_⟩⟩
    · intro h
      rw [hins] at h
      exact absurd h (by simp)
    · intro h
      have := h 0
      have := hall 0
      linarith
    · intro h
      rw [hins] at h
      exact absurd h (by simp)
    · rintro ⟨⟨i, hi⟩, -⟩
      have := hall i
      linarith
  · by_cases h2 :
        (vertexList cell).countP
          (fun v => decide (Cartesian3.dot plane.normal v + plane.distance < 0)) = 8
    · have hout : intersectPlane cell plane = Intersect.OUTSIDE := by
        simp only [intersectPlane]
        rw [if_neg h1, if_pos h2]
      have hall := hneg.mp h2
      refine ⟨⟨?_, ?_⟩, ⟨fun _ => hall, fun _ => hout⟩, ⟨?_, ?_⟩⟩
      · intro h
        rw [hout] at h
        exact absurd h (by simp)
      · intro h
        have := h 0
        have := hall 0
        linarith
      · intro h
        rw [hout] at h
        exact absurd h (by simp)
      · rintro ⟨-, ⟨i, hi⟩⟩
        have := hall i
        linarith
    · have hint : intersectPlane cell plane = Intersect.INTERSECTING := by
        simp only [intersectPlane]
        rw [if_neg h1, if_neg h2]
      have hex1 : ∃ i : Fin 8, Plane3.getPointDistance plane (cell.vertices i) < 0 := by
        by_contra hc
        push_neg at hc
        exact h1 (hplus.mpr hc)
      have hex2 : ∃ i : Fin 8, 0 ≤ Plane3.getPointDistance plane (cell.vertices i) := by
        by_contra hc
        push_neg at hc
        exact h2 (hneg.mpr (fun i => hc i))
      refine ⟨⟨?_, ?_⟩, ⟨?_, ?_⟩, ⟨fun _ => ⟨hex1, hex2⟩, fun _ => hint⟩⟩
      · intro h
        rw [hint] at h
        exact absurd h (by simp)
      · intro h
        exact absurd (hplus.mpr h) h1
      · intro h
        rw [hint] at h
        exact absurd h (by simp)
      · intro h
        exact absurd (hneg.mpr h) h2

/-- C7: when the signed distance of the query point to every one of the
six bounding planes is at most the tolerance EPSILON14, no plane is
selected and distanceToCamera returns exactly 0. -/
theorem c7_inside_returns_zero (cell : TileBoundingS2Cell) (point : Cartesian3)
    (h : ∀ j : Fin 6, Plane3.getPointDistance (cell.boundingPlanes j) point ≤ EPSILON14) :
    distanceToCameraSquared cell point = some 0 := by
  have g : ∀ j : Fin 6,
      ¬ greaterThan (Plane3.getPointDistance (cell.boundingPlanes j) point) 0 EPSILON14 := by
    intro j
    have := h j
    simp only [greaterThan, not_lt]
    linarith
  have hsel : selectedPlaneIndices cell point = [] := by
    simp [selectedPlaneIndices, g 0, g 1, g 2, g 3, g 4, g 5]
  simp only [distanceToCameraSquared, distanceToCameraCase, hsel]

/-- Witness for c7_inside_returns_zero: the box volume with the interior
query point (1/2, 1/2, 1/2). -/
theorem c7_witness : distanceToCameraSquared boxVol ⟨1/2, 1/2, 1/2⟩ = some 0 :=
  c7_inside_returns_zero boxVol ⟨1/2, 1/2, 1/2⟩ (by
    intro j
    fin_cases j <;>
      norm_num [boxVol, boxPlanes, Plane3.getPointDistance, Cartesian3.dot, EPSILON14, List.get])

/-- When the bottom plane (index 1) is selected at all, it is the head of
the selected-plane list: the top/bottom branch runs before the side loop
and contributes at most one index, and every index the side loop pushes
is at least 2. -/
theorem selected_one_is_head (cell : TileBoundingS2Cell) (point : Cartesian3)
    (x : Fin 6) (l : List (Fin 6))
    (hx : selectedPlaneIndices cell point = x :: l)
    (h1 : (1 : Fin 6) ∈ selectedPlaneIndices cell point) : x = 1 := by
  unfold selectedPlaneIndices at hx h1
  by_cases hA :
      greaterThan (Plane3.getPointDistance (cell.boundingPlanes 0) point) 0 EPSILON14
  · rw [if_pos hA] at h1
    exfalso
    clear hx
    split_ifs at h1 <;> revert h1 <;> decide
  · by_cases hB :
        greaterThan (Plane3.getPointDistance (cell.boundingPlanes 1) point) 0 EPSILON14
    · rw [if_neg hA, if_pos hB] at hx
      simp only [List.singleton_append, List.cons_append] at hx
      injection hx with hh _
      exact hh.symm
    · rw [if_neg hA, if_neg hB] at h1
      exfalso
      clear hx
      split_ifs at h1 <;> revert h1 <;> decide

/-- C10: with exactly three selected planes none of which is the top
plane, distanceToCamera measures to vertices[4 + ((i0 + 1) % 4)] where i0
is the FIRST selected index; when the bottom plane is among the three it
is necessarily the head (the top/bottom checks are exclusive and precede
the side loop), so i0 = 1 and the vertex is always vertices[6]; when all
three are side planes the same branch runs with i0 the first side index. -/
theorem c10_three_selected_without_top (cell : TileBoundingS2Cell) (point : Cartesian3)
    (s0 s1 s2 : Fin 6)
    (h : selectedPlaneIndices cell point = [s0, s1, s2])
    (htop : (0 : Fin 6) ∉ selectedPlaneIndices cell point) :
    distanceToCameraSquared cell point
      = some (Cartesian3.distanceSquared
          (cell.vertices ⟨4 + (s0.val + 1) % 4, by omega⟩) point)
    ∧ ((1 : Fin 6) ∈ selectedPlaneIndices cell point
        → s0 = 1 ∧ 4 + (s0.val + 1) % 4 = 6) := by
  have hs0ne : s0 ≠ 0 := by
    intro he
    apply htop
    rw [h, he]
    exact List.mem_cons_self _ _
  constructor
  · simp only [distanceToCameraSquared, distanceToCameraCase, h]
    rw [if_neg hs0ne]
  · intro h1mem
    have hs0 : s0 = 1 := selected_one_is_head cell point s0 [s1, s2] h h1mem
    subst hs0
    exact ⟨rfl, rfl⟩

/-- Witness for c10_three_selected_without_top: the box volume with query
point (2, 2, -1), which violates exactly the bottom plane and side planes
1 and 2 (selected list [1, 3, 4]); the measured vertex is vertices[6]. -/
theorem c10_witness :
    distanceToCameraSquared boxVol ⟨2, 2, -1⟩
      = some (Cartesian3.distanceSquared (boxVol.vertices ⟨6, by omega⟩) ⟨2, 2, -1⟩)
    ∧ ((1 : Fin 6) ∈ selectedPlaneIndices boxVol ⟨2, 2, -1⟩
        → (1 : Fin 6) = 1 ∧ 4 + ((1 : Fin 6).val + 1) % 4 = 6) :=
  c10_three_selected_without_top boxVol ⟨2, 2, -1⟩ 1 3 4
    (by
      norm_num [selectedPlaneIndices, greaterThan, Plane3.getPointDistance,
        Cartesian3.dot, EPSILON14, boxVol, boxPlanes, List.get])
    (by
      have hsel : selectedPlaneIndices boxVol ⟨2, 2, -1⟩ = [1, 3, 4] := by
        norm_num [selectedPlaneIndices, greaterThan, Plane3.getPointDistance,
          Cartesian3.dot, EPSILON14, boxVol, boxPlanes, List.get]
      rw [hsel]
      decide)

/-- C1 evidence: on the frustum volume the point (1/2, 1/2, -10) violates
the bottom plane and all four side planes (5 planes selected, more than
3).  The claim (and the source's own case-IV comment) prescribes the
1-selected computation on the BOTTOM face's data; the code instead
projects onto the top plane and passes edgeNormals[0] - one Cartesian3
from the last violated side face - where an array is expected, so the
call throws before producing any distance (modelled as typeError /
none). -/
theorem c1_more_than_three_selected_throws :
    selectedPlaneIndices frustumVol ⟨1/2, 1/2, -10⟩ = [1, 2, 3, 4, 5]
    ∧ distanceToCameraCase frustumVol ⟨1/2, 1/2, -10⟩ = DistanceResult.typeError
    ∧ distanceToCameraSquared frustumVol ⟨1/2, 1/2, -10⟩ = none := by
  have hsel : selectedPlaneIndices frustumVol ⟨1/2, 1/2, -10⟩ = [1, 2, 3, 4, 5] := by
    norm_num [selectedPlaneIndices, greaterThan, Plane3.getPointDistance,
      Cartesian3.dot, EPSILON14, frustumVol, frustumPlanes, List.get]
  refine ⟨hsel, ?_, ?_⟩ <;>
    simp only [distanceToCameraSquared, distanceToCameraCase, hsel]

/-- C2 evidence: on the box volume the point (1/2, -1, -1) violates
exactly the bottom plane and side plane 0 (selected list [1, 2]).  The
two stored vertices lying on both selected planes are vertices 4 and 5,
but the code takes the segment between vertices 2 and 3 - two TOP-face
corners lying on neither selected plane - and returns the squared
distance 8 to it, while the clamped projection onto the true shared edge
is at squared distance 2. -/
theorem c2_two_selected_wrong_edge :
    selectedPlaneIndices boxVol ⟨1/2, -1, -1⟩ = [1, 2]
    ∧ distanceToCameraSquared boxVol ⟨1/2, -1, -1⟩
        = some (Cartesian3.distanceSquared
            (closestPointLineSegment ⟨1/2, -1, -1⟩ (boxVol.vertices 2) (boxVol.vertices 3))
            ⟨1/2, -1, -1⟩)
    ∧ (∀ m : Fin 8,
        (Plane3.getPointDistance (boxVol.boundingPlanes 1) (boxVol.vertices m) = 0
          ∧ Plane3.getPointDistance (boxVol.boundingPlanes 2) (boxVol.vertices m) = 0)
        ↔ (m = 4 ∨ m = 5))
    ∧ distanceToCameraSquared boxVol ⟨1/2, -1, -1⟩ = some 8
    ∧ Cartesian3.distanceSquared
        (closestPointLineSegment ⟨1/2, -1, -1⟩ (boxVol.vertices 4) (boxVol.vertices 5))
        ⟨1/2, -1, -1⟩ = 2 := by
  have hsel : selectedPlaneIndices boxVol ⟨1/2, -1, -1⟩ = [1, 2] := by
    norm_num [selectedPlaneIndices, greaterThan, Plane3.getPointDistance,
      Cartesian3.dot, EPSILON14, boxVol, boxPlanes, List.get]
  refine ⟨hsel, ?_, ?_, ?_, ?_⟩
  · simp only [distanceToCameraSquared, distanceToCameraCase, hsel]
    norm_num [boxVol, boxVertices, closestPointLineSegment, Cartesian3.distanceSquared,
      Cartesian3.subtract, Cartesian3.dot, Fin.ext_iff, List.get]
  · intro m
    fin_cases m <;>
      norm_num [boxVol, boxPlanes, boxVertices, Plane3.getPointDistance,
        Cartesian3.dot, Fin.ext_iff, List.get] <;>
      decide
  · simp only [distanceToCameraSquared, distanceToCameraCase, hsel]
    norm_num [boxVol, boxVertices, closestPointLineSegment, Cartesian3.distanceSquared,
      Cartesian3.subtract, Cartesian3.dot, Fin.ext_iff, List.get]
  · norm_num [boxVol, boxVertices, closestPointLineSegment, Cartesian3.distanceSquared,
      Cartesian3.subtract, Cartesian3.dot, List.get]

/-- C3 evidence: on the box volume the point (3/2, -1/2, 3/2) violates
exactly the top plane and side planes 0 and 1 (selected list [0, 2, 3]).
The unique stored vertex on all three selected planes is vertices 1, at
squared distance 3/4, but the code measures to vertices[s1 % 4] =
vertices 2 (squared distance 11/4), a vertex that does not lie on side
plane 0. -/
theorem c3_three_selected_wrong_vertex :
    selectedPlaneIndices boxVol ⟨3/2, -1/2, 3/2⟩ = [0, 2, 3]
    ∧ distanceToCameraSquared boxVol ⟨3/2, -1/2, 3/2⟩
        = some (Cartesian3.distanceSquared (boxVol.vertices 2) ⟨3/2, -1/2, 3/2⟩)
    ∧ (∀ m : Fin 8,
        (Plane3.getPointDistance (boxVol.boundingPlanes 0) (boxVol.vertices m) = 0
          ∧ Plane3.getPointDistance (boxVol.boundingPlanes 2) (boxVol.vertices m) = 0
          ∧ Plane3.getPointDistance (boxVol.boundingPlanes 3) (boxVol.vertices m) = 0)
        ↔ m = 1)
    ∧ Cartesian3.distanceSquared (boxVol.vertices 2) ⟨3/2, -1/2, 3/2⟩ = 11/4
    ∧ Cartesian3.distanceSquared (boxVol.vertices 1) ⟨3/2, -1/2, 3/2⟩ = 3/4 := by
  have hsel : selectedPlaneIndices boxVol ⟨3/2, -1/2, 3/2⟩ = [0, 2, 3] := by
    norm_num [selectedPlaneIndices, greaterThan, Plane3.getPointDistance,
      Cartesian3.dot, EPSILON14, boxVol, boxPlanes, List.get]
  refine ⟨hsel, ?_, ?_, ?_, ?_⟩
  · simp only [distanceToCameraSquared, distanceToCameraCase, hsel]
    norm_num [boxVol, boxVertices, Cartesian3.distanceSquared, Fin.ext_iff, List.get]
  · intro m
    fin_cases m <;>
      norm_num [boxVol, boxPlanes, boxVertices, Plane3.getPointDistance,
        Cartesian3.dot, Fin.ext_iff, List.get]
  · norm_num [boxVol, boxVertices, Cartesian3.distanceSquared, List.get]
  · norm_num [boxVol, boxVertices, Cartesian3.distanceSquared, List.get]

/-- The running minimum of the bottom-plane loop never exceeds its start
value. -/
theorem foldlMin_le_init (l : List ℚ) (a : ℚ) :
    l.foldl (fun acc distance => if distance < acc then distance else acc) a ≤ a := by
  induction l generalizing a with
  | nil => exact le_refl a
  | cons d l ih =>
    refine le_trans (ih (if d < a then d else a)) ?_
    split_ifs with h
    · exact le_of_lt h
    · exact le_refl a

/-- The running minimum of the bottom-plane loop is at most every list
element. -/
theorem foldlMin_le_mem (l : List ℚ) (a x : ℚ) (hx : x ∈ l) :
    l.foldl (fun acc distance => if distance < acc then distance else acc) a ≤ x := by
  induction l generalizing a with
  | nil => exact absurd hx (List.not_mem_nil x)
  | cons d l ih =>
    rcases List.mem_cons.mp hx with rfl | hmem
    · refine le_trans (foldlMin_le_init l (if x < a then x else a)) ?_
      split_ifs with h
      · exact le_refl x
      · exact not_lt.mp h
    · exact ih (if d < a then d else a) hmem

/-- The running minimum of the bottom-plane loop is its start value or a
list element. -/
theorem foldlMin_mem (l : List ℚ) (a : ℚ) :
    l.foldl (fun acc distance => if distance < acc then distance else acc) a = a
    ∨ l.foldl (fun acc distance => if distance < acc then distance else acc) a ∈ l := by
  induction l generalizing a with
  | nil => exact Or.inl rfl
  | cons d l ih =>
    rcases ih (if d < a then d else a) with h | h
    · rw [List.foldl_cons, h]
      split_ifs with hlt
      · exact Or.inr (List.mem_cons_self d l)
      · exact Or.inl rfl
    · exact Or.inr (List.mem_cons_of_mem d h)

/-- Signed distance to the computed bottom plane, in terms of the kept
maximum distance and the signed distance to the top plane. -/
theorem computeBottomPlane_sd (topPlane : Plane3) (liftedCorners : Fin 4 → Cartesian3)
    (p : Cartesian3) :
    Plane3.getPointDistance (computeBottomPlane topPlane liftedCorners) p
      = bottomMaxDistance topPlane liftedCorners - Plane3.getPointDistance topPlane p := by
  simp only [computeBottomPlane, Plane3.getPointDistance, Cartesian3.dot, Cartesian3.negate]
  ring

/-- Every corner's top-plane signed distance appears in the mapped list
folded by bottomMaxDistance. -/
theorem corner_sd_mem (topPlane : Plane3) (liftedCorners : Fin 4 → Cartesian3) (j : Fin 4) :
    Plane3.getPointDistance topPlane (liftedCorners j)
      ∈ ([0, 1, 2, 3] : List (Fin 4)).map
          (fun i => Plane3.getPointDistance topPlane (liftedCorners i)) := by
  refine List.mem_map_of_mem _ ?_
  fin_cases j <;> simp

/-- C6: the bottom plane is the negated top plane shifted so that every
lifted corner has nonpositive signed distance to it, and whenever some
corner i (lifted to minimumHeight) minimizes the signed distance to the
top plane among the four corners with that minimum nonpositive, corner i
lies exactly on the bottom plane. -/
theorem c6_bottom_plane (topPlane : Plane3) (liftedCorners : Fin 4 → Cartesian3) :
    (computeBottomPlane topPlane liftedCorners).normal = Cartesian3.negate topPlane.normal
    ∧ (∀ j, Plane3.getPointDistance (computeBottomPlane topPlane liftedCorners)
        (liftedCorners j) ≤ 0)
    ∧ ∀ i : Fin 4,
        (∀ j, Plane3.getPointDistance topPlane (liftedCorners i)
          ≤ Plane3.getPointDistance topPlane (liftedCorners j))
        → Plane3.getPointDistance topPlane (liftedCorners i) ≤ 0
        → Plane3.getPointDistance (computeBottomPlane topPlane liftedCorners)
            (liftedCorners i) = 0 := by
  have hle : ∀ j, bottomMaxDistance topPlane liftedCorners
      ≤ Plane3.getPointDistance topPlane (liftedCorners j) :=
    fun j => foldlMin_le_mem _ _ _ (corner_sd_mem topPlane liftedCorners j)
  refine ⟨rfl, fun j => ?_, fun i hmin hneg => ?_⟩
  · rw [computeBottomPlane_sd]
    have := hle j
    linarith
  · have hge : Plane3.getPointDistance topPlane (liftedCorners i)
        ≤ bottomMaxDistance topPlane liftedCorners := by
      rcases foldlMin_mem
          (([0, 1, 2, 3] : List (Fin 4)).map
            (fun k => Plane3.getPointDistance topPlane (liftedCorners k))) 0 with h | h
      · rw [show bottomMaxDistance topPlane liftedCorners
            = (([0, 1, 2, 3] : List (Fin 4)).map
                (fun k => Plane3.getPointDistance topPlane (liftedCorners k))).foldl
              (fun acc distance => if distance < acc then distance else acc) 0 from rfl, h]
        exact hneg
      · rcases List.mem_map.mp h with ⟨j, -, hj⟩
        rw [show bottomMaxDistance topPlane liftedCorners
            = (([0, 1, 2, 3] : List (Fin 4)).map
                (fun k => Plane3.getPointDistance topPlane (liftedCorners k))).foldl
              (fun acc distance => if distance < acc then distance else acc) 0 from rfl, ← hj]
        exact hmin j
    rw [computeBottomPlane_sd]
    have := hle i
    linarith

/-- Concrete top plane for the c6 witness: z = 1 with outward normal +z. -/
def witnessTopPlane : Plane3 := ⟨⟨0, 0, 1⟩, -1⟩

/-- Concrete lifted corners for the c6 witness; corner 3 is the deepest
below the top plane (signed distance -2). -/
def witnessCorners (j : Fin 4) : Cartesian3 :=
  ([⟨0, 0, 0⟩, ⟨1, 0, 1/2⟩, ⟨1, 1, 0⟩, ⟨0, 1, -1⟩] : List Cartesian3).get ⟨j.val, j.isLt⟩

/-- Witness for c6_bottom_plane at the concrete top plane and corners,
with minimizing corner 3. -/
theorem c6_witness :
    (computeBottomPlane witnessTopPlane witnessCorners).normal
      = Cartesian3.negate witnessTopPlane.normal
    ∧ Plane3.getPointDistance (computeBottomPlane witnessTopPlane witnessCorners)
        (witnessCorners 3) = 0 :=
  ⟨(c6_bottom_plane witnessTopPlane witnessCorners).1,
   (c6_bottom_plane witnessTopPlane witnessCorners).2.2 3
      (by
        intro j
        fin_cases j <;>
          norm_num [witnessTopPlane, witnessCorners, Plane3.getPointDistance,
            Cartesian3.dot, List.get])
      (by
        norm_num [witnessTopPlane, witnessCorners, Plane3.getPointDistance,
          Cartesian3.dot, List.get])⟩

/-- The point (1-s) * l0 + s * l1 returned by the last branch of
closestPointLineSegment, as a function of the parameter s. -/
def pointOnSegment (s : ℚ) (l0 l1 : Cartesian3) : Cartesian3 :=
  ⟨(1 - s) * l0.x + s * l1.x, (1 - s) * l0.y + s * l1.y, (1 - s) * l0.z + s * l1.z⟩

/-- The clamped parametric projection dot(p-l0, l1-l0) / |l1-l0|^2,
clamped to [0, 1]. -/
def segmentParameter (p l0 l1 : Cartesian3) : ℚ :=
  let d := Cartesian3.subtract l1 l0
  max 0 (min 1 (Cartesian3.dot d (Cartesian3.subtract p l0) / Cartesian3.dot d d))

/-- A dot product of a vector with itself is nonnegative. -/
theorem dot_self_nonneg (a : Cartesian3) : 0 ≤ Cartesian3.dot a a := by
  simp only [Cartesian3.dot]
  nlinarith [mul_self_nonneg a.x, mul_self_nonneg a.y, mul_self_nonneg a.z]

/-- A dot product of a nonzero vector with itself is positive. -/
theorem dot_self_pos (a : Cartesian3) (h : a ≠ ⟨0, 0, 0⟩) : 0 < Cartesian3.dot a a := by
  rcases lt_or_eq_of_le (dot_self_nonneg a) with hlt | heq
  · exact hlt
  · exfalso
    apply h
    have h0 : a.x * a.x + a.y * a.y + a.z * a.z = 0 := by
      simp only [Cartesian3.dot] at heq
      linarith
    have hx : a.x = 0 := mul_self_eq_zero.mp
      (le_antisymm (by nlinarith [mul_self_nonneg a.y, mul_self_nonneg a.z])
        (mul_self_nonneg a.x))
    have hy : a.y = 0 := mul_self_eq_zero.mp
      (le_antisymm (by nlinarith [mul_self_nonneg a.x, mul_self_nonneg a.z])
        (mul_self_nonneg a.y))
    have hz : a.z = 0 := mul_self_eq_zero.mp
      (le_antisymm (by nlinarith [mul_self_nonneg a.x, mul_self_nonneg a.y])
        (mul_self_nonneg a.z))
    ext <;> assumption

/-- Squared distance from p to a parametric point of the segment, as a
quadratic in the parameter. -/
theorem distSq_pointOnSegment (p l0 l1 : Cartesian3) (s : ℚ) :
    Cartesian3.distanceSquared p (pointOnSegment s l0 l1)
      = Cartesian3.dot (Cartesian3.subtract l1 l0) (Cartesian3.subtract l1 l0) * s ^ 2
        - 2 * Cartesian3.dot (Cartesian3.subtract l1 l0) (Cartesian3.subtract p l0) * s
        + Cartesian3.dot (Cartesian3.subtract p l0) (Cartesian3.subtract p l0) := by
  simp only [Cartesian3.distanceSquared, pointOnSegment, Cartesian3.dot, Cartesian3.subtract]
  ring

/-- C8: for distinct endpoints, closestPointLineSegment returns the
clamped parametric projection of p onto the segment, and that point
minimizes the (squared) distance to p among all segment points
(1-s) * l0 + s * l1 with s in [0, 1]. -/
theorem c8_closestPointLineSegment (p l0 l1 : Cartesian3) (s : ℚ)
    (hne : l0 ≠ l1) (hs0 : 0 ≤ s) (hs1 : s ≤ 1) :
    closestPointLineSegment p l0 l1 = pointOnSegment (segmentParameter p l0 l1) l0 l1
    ∧ Cartesian3.distanceSquared p (closestPointLineSegment p l0 l1)
        ≤ Cartesian3.distanceSquared p (pointOnSegment s l0 l1) := by
  have hdne : Cartesian3.subtract l1 l0 ≠ ⟨0, 0, 0⟩ := by
    intro h0
    apply hne
    have hx := congrArg Cartesian3.x h0
    have hy := congrArg Cartesian3.y h0
    have hz := congrArg Cartesian3.z h0
    simp only [Cartesian3.subtract] at hx hy hz
    ext <;> linarith
  have hA : 0 < Cartesian3.dot (Cartesian3.subtract l1 l0) (Cartesian3.subtract l1 l0) :=
    dot_self_pos _ hdne
  set A := Cartesian3.dot (Cartesian3.subtract l1 l0) (Cartesian3.subtract l1 l0) with hAdef
  set B := Cartesian3.dot (Cartesian3.subtract l1 l0) (Cartesian3.subtract p l0) with hBdef
  set C := Cartesian3.dot (Cartesian3.subtract p l0) (Cartesian3.subtract p l0) with hCdef
  have hval : ∀ u : ℚ, Cartesian3.distanceSquared p (pointOnSegment u l0 l1)
      = A * u ^ 2 - 2 * B * u + C := fun u => distSq_pointOnSegment p l0 l1 u
  have hl0 : l0 = pointOnSegment 0 l0 l1 := by
    simp only [pointOnSegment]
    ext <;> ring
  have hl1 : l1 = pointOnSegment 1 l0 l1 := by
    simp only [pointOnSegment]
    ext <;> ring
  simp only [closestPointLineSegment]
  split_ifs with h1 h2
  · -- B ≤ 0: the segment start l0 is returned
    have hparam : segmentParameter p l0 l1 = 0 := by
      simp only [segmentParameter]
      rw [min_eq_right, max_eq_left]
      · exact div_nonpos_of_nonpos_of_nonneg h1 (le_of_lt hA)
      · exact le_trans (div_nonpos_of_nonpos_of_nonneg h1 (le_of_lt hA)) zero_le_one
    refine ⟨by rw [hparam]; exact hl0, ?_⟩
    rw [hval s, show Cartesian3.distanceSquared p l0
      = A * (0 : ℚ) ^ 2 - 2 * B * 0 + C from by rw [← hval 0, ← hl0]]
    nlinarith [mul_nonneg (mul_nonneg (le_of_lt hA) hs0) hs0,
      mul_nonneg (neg_nonneg.mpr h1) hs0]
  · -- B ≥ A: the segment end l1 is returned
    have hBA : A ≤ B := h2
    have hparam : segmentParameter p l0 l1 = 1 := by
      simp only [segmentParameter]
      rw [min_eq_left, max_eq_right]
      · exact zero_le_one
      · rw [le_div_iff₀ hA]
        linarith
    refine ⟨by rw [hparam]; exact hl1, ?_⟩
    rw [hval s, show Cartesian3.distanceSquared p l1
      = A * (1 : ℚ) ^ 2 - 2 * B * 1 + C from by rw [← hval 1, ← hl1]]
    nlinarith [mul_nonneg (sub_nonneg.mpr hs1) (sub_nonneg.mpr hBA),
      mul_nonneg (sub_nonneg.mpr hs1) (mul_nonneg (le_of_lt hA) (sub_nonneg.mpr hs1))]
  · -- 0 < B < A: the interior projection is returned
    have hBpos : 0 < B := lt_of_not_le h1
    have hBA : B < A := lt_of_not_le h2
    have hparam : segmentParameter p l0 l1 = B / A := by
      simp only [segmentParameter]
      rw [min_eq_right, max_eq_right]
      · exact div_nonneg (le_of_lt hBpos) (le_of_lt hA)
      · rw [div_le_one hA]
        exact le_of_lt hBA
    have hpoint : (⟨(1 - B / A) * l0.x + B / A * l1.x, (1 - B / A) * l0.y + B / A * l1.y,
        (1 - B / A) * l0.z + B / A * l1.z⟩ : Cartesian3)
        = pointOnSegment (B / A) l0 l1 := rfl
    refine ⟨by rw [hparam, hpoint], ?_⟩
    rw [hpoint, hval s, hval (B / A)]
    have hkey : A * s ^ 2 - 2 * B * s + C - (A * (B / A) ^ 2 - 2 * B * (B / A) + C)
        = (A * s - B) ^ 2 / A := by
      field_simp
      ring
    nlinarith [div_nonneg (sq_nonneg (A * s - B)) (le_of_lt hA)]

/-- Witness for c8_closestPointLineSegment: p = origin against the
segment from (2, -1, 0) to (2, 1, 0) with comparison parameter s = 1/4;
the returned point is the interior projection (2, 0, 0). -/
theorem c8_witness :
    closestPointLineSegment ⟨0, 0, 0⟩ ⟨2, -1, 0⟩ ⟨2, 1, 0⟩
      = pointOnSegment (segmentParameter ⟨0, 0, 0⟩ ⟨2, -1, 0⟩ ⟨2, 1, 0⟩) ⟨2, -1, 0⟩ ⟨2, 1, 0⟩
    ∧ Cartesian3.distanceSquared ⟨0, 0, 0⟩
        (closestPointLineSegment ⟨0, 0, 0⟩ ⟨2, -1, 0⟩ ⟨2, 1, 0⟩)
      ≤ Cartesian3.distanceSquared ⟨0, 0, 0⟩
          (pointOnSegment (1/4) ⟨2, -1, 0⟩ ⟨2, 1, 0⟩) :=
  c8_closestPointLineSegment ⟨0, 0, 0⟩ ⟨2, -1, 0⟩ ⟨2, 1, 0⟩ (1/4)
    (by intro h; exact absurd (congrArg Cartesian3.y h) (by norm_num))
    (by norm_num) (by norm_num)

/-- Dot of the first normal with the accumulated intersection vector:
only the first cross term survives and contributes the determinant. -/
theorem dot_intersectionSum_fst (p0 p1 p2 : Plane3) :
    Cartesian3.dot p0.normal (intersectionSum p0 p1 p2)
      = -p0.distance * Cartesian3.dot p0.normal p0.normal
          * det3 p0.normal p1.normal p2.normal := by
  simp only [intersectionSum, Cartesian3.dot, Cartesian3.cross, Cartesian3.multiplyByScalar,
    Cartesian3.add, det3]
  ring

/-- Dot of the second normal with the accumulated intersection vector. -/
theorem dot_intersectionSum_snd (p0 p1 p2 : Plane3) :
    Cartesian3.dot p1.normal (intersectionSum p0 p1 p2)
      = -p1.distance * Cartesian3.dot p1.normal p1.normal
          * det3 p0.normal p1.normal p2.normal := by
  simp only [intersectionSum, Cartesian3.dot, Cartesian3.cross, Cartesian3.multiplyByScalar,
    Cartesian3.add, det3]
  ring

/-- Dot of the third normal with the accumulated intersection vector. -/
theorem dot_intersectionSum_trd (p0 p1 p2 : Plane3) :
    Cartesian3.dot p2.normal (intersectionSum p0 p1 p2)
      = -p2.distance * Cartesian3.dot p2.normal p2.normal
          * det3 p0.normal p1.normal p2.normal := by
  simp only [intersectionSum, Cartesian3.dot, Cartesian3.cross, Cartesian3.multiplyByScalar,
    Cartesian3.add, det3]
  ring

/-- Cramer expansion: any vector scaled by the determinant of three rows
decomposes over the three pairwise cross products, with coefficients the
dot products against the rows. -/
theorem cramer3 (a b c v : Cartesian3) :
    Cartesian3.multiplyByScalar v (det3 a b c)
      = Cartesian3.add
          (Cartesian3.add
            (Cartesian3.multiplyByScalar (Cartesian3.cross b c) (Cartesian3.dot a v))
            (Cartesian3.multiplyByScalar (Cartesian3.cross c a) (Cartesian3.dot b v)))
          (Cartesian3.multiplyByScalar (Cartesian3.cross a b) (Cartesian3.dot c v)) := by
  ext <;>
    simp only [Cartesian3.multiplyByScalar, Cartesian3.add, Cartesian3.cross,
      Cartesian3.dot, det3] <;>
    ring

/-- Collecting a dot product against a componentwise-divided vector. -/
theorem dot_div_components (n s : Cartesian3) (dd : ℚ) :
    Cartesian3.dot n ⟨s.x / dd, s.y / dd, s.z / dd⟩ = Cartesian3.dot n s / dd := by
  simp only [Cartesian3.dot]
  ring

/-- C5: for unit normals and nonzero normal-matrix determinant,
computeIntersection satisfies all three plane equations and is the unique
point doing so; and it is by definition the accumulated cross-product
combination divided by the determinant. -/
theorem c5_computeIntersection (p0 p1 p2 : Plane3) (y : Cartesian3)
    (h0 : Cartesian3.dot p0.normal p0.normal = 1)
    (h1 : Cartesian3.dot p1.normal p1.normal = 1)
    (h2 : Cartesian3.dot p2.normal p2.normal = 1)
    (hdet : det3 p0.normal p1.normal p2.normal ≠ 0) :
    (Plane3.getPointDistance p0 (computeIntersection p0 p1 p2) = 0
      ∧ Plane3.getPointDistance p1 (computeIntersection p0 p1 p2) = 0
      ∧ Plane3.getPointDistance p2 (computeIntersection p0 p1 p2) = 0)
    ∧ ((Plane3.getPointDistance p0 y = 0 ∧ Plane3.getPointDistance p1 y = 0
        ∧ Plane3.getPointDistance p2 y = 0) → y = computeIntersection p0 p1 p2)
    ∧ computeIntersection p0 p1 p2
        = ⟨(intersectionSum p0 p1 p2).x / det3 p0.normal p1.normal p2.normal,
           (intersectionSum p0 p1 p2).y / det3 p0.normal p1.normal p2.normal,
           (intersectionSum p0 p1 p2).z / det3 p0.normal p1.normal p2.normal⟩ := by
  have hsat : Plane3.getPointDistance p0 (computeIntersection p0 p1 p2) = 0
      ∧ Plane3.getPointDistance p1 (computeIntersection p0 p1 p2) = 0
      ∧ Plane3.getPointDistance p2 (computeIntersection p0 p1 p2) = 0 := by
    refine ⟨?_, ?_, ?_⟩
    · simp only [computeIntersection, Plane3.getPointDistance, dot_div_components]
      rw [dot_intersectionSum_fst, h0]
      field_simp [hdet]
    · simp only [computeIntersection, Plane3.getPointDistance, dot_div_components]
      rw [dot_intersectionSum_snd, h1]
      field_simp [hdet]
    · simp only [computeIntersection, Plane3.getPointDistance, dot_div_components]
      rw [dot_intersectionSum_trd, h2]
      field_simp [hdet]
  refine ⟨hsat, ?_, rfl⟩
  rintro ⟨hy0, hy1, hy2⟩
  obtain ⟨hr0, hr1, hr2⟩ := hsat
  have hdotsub : ∀ n a b : Cartesian3,
      Cartesian3.dot n (Cartesian3.subtract a b)
        = Cartesian3.dot n a - Cartesian3.dot n b := by
    intro n a b
    simp only [Cartesian3.dot, Cartesian3.subtract]
    ring
  have hv0 : Cartesian3.dot p0.normal
      (Cartesian3.subtract y (computeIntersection p0 p1 p2)) = 0 := by
    rw [hdotsub]
    simp only [Plane3.getPointDistance] at hy0 hr0
    linarith
  have hv1 : Cartesian3.dot p1.normal
      (Cartesian3.subtract y (computeIntersection p0 p1 p2)) = 0 := by
    rw [hdotsub]
    simp only [Plane3.getPointDistance] at hy1 hr1
    linarith
  have hv2 : Cartesian3.dot p2.normal
      (Cartesian3.subtract y (computeIntersection p0 p1 p2)) = 0 := by
    rw [hdotsub]
    simp only [Plane3.getPointDistance] at hy2 hr2
    linarith
  have hcr := cramer3 p0.normal p1.normal p2.normal
    (Cartesian3.subtract y (computeIntersection p0 p1 p2))
  rw [hv0, hv1, hv2] at hcr
  simp only [Cartesian3.multiplyByScalar, Cartesian3.add, mul_zero, add_zero] at hcr
  have hx := congrArg Cartesian3.x hcr
  have hy := congrArg Cartesian3.y hcr
  have hz := congrArg Cartesian3.z hcr
  simp only [Cartesian3.subtract] at hx hy hz
  ext
  · have := mul_eq_zero.mp (by linarith [hx] :
      (y.x - (computeIntersection p0 p1 p2).x) * det3 p0.normal p1.normal p2.normal = 0)
    rcases this with h | h
    · linarith
    · exact absurd h hdet
  · have := mul_eq_zero.mp (by linarith [hy] :
      (y.y - (computeIntersection p0 p1 p2).y) * det3 p0.normal p1.normal p2.normal = 0)
    rcases this with h | h
    · linarith
    · exact absurd h hdet
  · have := mul_eq_zero.mp (by linarith [hz] :
      (y.z - (computeIntersection p0 p1 p2).z) * det3 p0.normal p1.normal p2.normal = 0)
    rcases this with h | h
    · linarith
    · exact absurd h hdet

/-- When the tolerance test singles out exactly plane k, the selected
list is exactly [k]. -/
theorem selectedPlaneIndices_single (cell : TileBoundingS2Cell) (p : Cartesian3) (k : Fin 6)
    (hsel : ∀ j : Fin 6,
      greaterThan (Plane3.getPointDistance (cell.boundingPlanes j) p) 0 EPSILON14 ↔ j = k) :
    selectedPlaneIndices cell p = [k] := by
  have g0 := hsel 0
  have g1 := hsel 1
  have g2 := hsel 2
  have g3 := hsel 3
  have g4 := hsel 4
  have g5 := hsel 5
  fin_cases k <;> simp [selectedPlaneIndices, g0, g1, g2, g3, g4, g5]

/-- The tracked accumulator of the closestPointPolygon fold is empty or
holds a point produced by closestPointLineSegment on one of the four
edges. -/
theorem closestPointPolygonStep_shape (p : Cartesian3) (vs : Fin 4 → Cartesian3)
    (ens : Fin 4 → Cartesian3) (dir : ℚ) (acc : Option (ℚ × Cartesian3)) (i : Fin 4)
    (h : acc = none ∨ ∃ m : Fin 4, ∃ d : ℚ,
      acc = some (d, closestPointLineSegment p (vs m) (vs ⟨(m.val + 1) % 4, by omega⟩))) :
    closestPointPolygonStep p vs ens dir acc i = none
    ∨ ∃ m : Fin 4, ∃ d : ℚ,
      closestPointPolygonStep p vs ens dir acc i
        = some (d, closestPointLineSegment p (vs m) (vs ⟨(m.val + 1) % 4, by omega⟩)) := by
  simp only [closestPointPolygonStep]
  split_ifs with hskip
  · exact h
  · cases acc with
    | none => exact Or.inr ⟨i, _, rfl⟩
    | some pair =>
      rcases h with h | ⟨m, d, hmd⟩
      · exact absurd h (by simp)
      · obtain rfl : pair
            = (d, closestPointLineSegment p (vs m) (vs ⟨(m.val + 1) % 4, by omega⟩)) :=
          Option.some.inj hmd
        dsimp only
        split_ifs with hlt
        · exact Or.inr ⟨i, _, rfl⟩
        · exact Or.inr ⟨m, d, rfl⟩

/-- The point closestPointPolygon returns is the projected point itself
or a closestPointLineSegment result on one of the four edges. -/
theorem closestPointPolygon_cases (p : Cartesian3) (vs : Fin 4 → Cartesian3) (plane : Plane3)
    (ens : Fin 4 → Cartesian3) (dir : ℚ) :
    closestPointPolygon p vs plane ens dir = p
    ∨ ∃ m : Fin 4, closestPointPolygon p vs plane ens dir
        = closestPointLineSegment p (vs m) (vs ⟨(m.val + 1) % 4, by omega⟩) := by
  have hfold :
      ([0, 1, 2, 3] : List (Fin 4)).foldl (closestPointPolygonStep p vs ens dir) none = none
      ∨ ∃ m : Fin 4, ∃ d : ℚ,
        ([0, 1, 2, 3] : List (Fin 4)).foldl (closestPointPolygonStep p vs ens dir) none
          = some (d, closestPointLineSegment p (vs m) (vs ⟨(m.val + 1) % 4, by omega⟩)) := by
    simp only [List.foldl]
    exact closestPointPolygonStep_shape p vs ens dir _ 3
      (closestPointPolygonStep_shape p vs ens dir _ 2
        (closestPointPolygonStep_shape p vs ens dir _ 1
          (closestPointPolygonStep_shape p vs ens dir _ 0 (Or.inl rfl))))
  unfold closestPointPolygon
  rcases hfold with h | ⟨m, d, h⟩
  · rw [h]
    exact Or.inl rfl
  · rw [h]
    exact Or.inr ⟨m, rfl⟩

/-- A point produced by closestPointLineSegment between two points of a
plane lies on that plane. -/
theorem closestPointLineSegment_on_plane (plane : Plane3) (p l0 l1 : Cartesian3)
    (h0 : Plane3.getPointDistance plane l0 = 0)
    (h1 : Plane3.getPointDistance plane l1 = 0) :
    Plane3.getPointDistance plane (closestPointLineSegment p l0 l1) = 0 := by
  simp only [closestPointLineSegment]
  split_ifs with ha hb
  · exact h0
  · exact h1
  · generalize hT : Cartesian3.dot (Cartesian3.subtract l1 l0) (Cartesian3.subtract p l0)
      / Cartesian3.dot (Cartesian3.subtract l1 l0) (Cartesian3.subtract l1 l0) = T
    simp only [Plane3.getPointDistance, Cartesian3.dot] at h0 h1 ⊢
    linear_combination (1 - T) * h0 + T * h1

/-- The orthogonal projection onto a plane with unit normal lies on the
plane. -/
theorem projectPointOntoPlane_on_plane (plane : Plane3) (p : Cartesian3)
    (hunit : Cartesian3.dot plane.normal plane.normal = 1) :
    Plane3.getPointDistance plane (Plane3.projectPointOntoPlane plane p) = 0 := by
  simp only [Cartesian3.dot] at hunit
  simp only [Plane3.projectPointOntoPlane, Plane3.getPointDistance, Cartesian3.dot,
    Cartesian3.subtract, Cartesian3.multiplyByScalar]
  linear_combination
    (-(plane.normal.x * p.x + plane.normal.y * p.y + plane.normal.z * p.z
        + plane.distance)) * hunit

/-- Moving the query point along the unit plane normal does not change
its orthogonal projection onto the plane. -/
theorem projectPointOntoPlane_shift (plane : Plane3) (p : Cartesian3) (t : ℚ)
    (hunit : Cartesian3.dot plane.normal plane.normal = 1) :
    Plane3.projectPointOntoPlane plane
        (Cartesian3.add p (Cartesian3.multiplyByScalar plane.normal t))
      = Plane3.projectPointOntoPlane plane p := by
  simp only [Cartesian3.dot] at hunit
  ext <;>
    simp only [Plane3.projectPointOntoPlane, Plane3.getPointDistance, Cartesian3.dot,
      Cartesian3.subtract, Cartesian3.multiplyByScalar, Cartesian3.add]
  · linear_combination (-(plane.normal.x * t)) * hunit
  · linear_combination (-(plane.normal.y * t)) * hunit
  · linear_combination (-(plane.normal.z * t)) * hunit

/-- Squared-distance change under a shift of the query point along a
direction n. -/
theorem distSq_shift (fp p n : Cartesian3) (t : ℚ) :
    Cartesian3.distanceSquared fp (Cartesian3.add p (Cartesian3.multiplyByScalar n t))
      - Cartesian3.distanceSquared fp p
      = 2 * t * (Cartesian3.dot n p - Cartesian3.dot n fp) + t ^ 2 * Cartesian3.dot n n := by
  simp only [Cartesian3.distanceSquared, Cartesian3.add, Cartesian3.multiplyByScalar,
    Cartesian3.dot]
  ring

/-- C9: when the query point violates exactly one plane k (with unit
outward normal) beyond the tolerance, the face vertices used for plane k
lie on plane k, and the point moved outward by t > 0 along the normal
still violates exactly plane k, the returned (squared) distance strictly
increases.  Squared distances order exactly as the source's Euclidean
distances do. -/
theorem c9_outward_monotone (cell : TileBoundingS2Cell) (p : Cartesian3) (k : Fin 6)
    (t q q' : ℚ)
    (hunit : Cartesian3.dot (cell.boundingPlanes k).normal (cell.boundingPlanes k).normal = 1)
    (hface : ∀ i : Fin 4, Plane3.getPointDistance (cell.boundingPlanes k)
      ((faceDataOf cell k).vertices i) = 0)
    (hsel : ∀ j : Fin 6,
      greaterThan (Plane3.getPointDistance (cell.boundingPlanes j) p) 0 EPSILON14 ↔ j = k)
    (hsel' : ∀ j : Fin 6,
      greaterThan (Plane3.getPointDistance (cell.boundingPlanes j)
        (Cartesian3.add p
          (Cartesian3.multiplyByScalar (cell.boundingPlanes k).normal t))) 0 EPSILON14
      ↔ j = k)
    (ht : 0 < t)
    (hq : distanceToCameraSquared cell p = some q)
    (hq' : distanceToCameraSquared cell
      (Cartesian3.add p (Cartesian3.multiplyByScalar (cell.boundingPlanes k).normal t))
      = some q') :
    q < q' := by
  have hs1 : selectedPlaneIndices cell p = [k] := selectedPlaneIndices_single cell p k hsel
  have hs2 : selectedPlaneIndices cell
      (Cartesian3.add p (Cartesian3.multiplyByScalar (cell.boundingPlanes k).normal t))
      = [k] := selectedPlaneIndices_single cell _ k hsel'
  have hproj : Plane3.projectPointOntoPlane (cell.boundingPlanes k)
      (Cartesian3.add p (Cartesian3.multiplyByScalar (cell.boundingPlanes k).normal t))
      = Plane3.projectPointOntoPlane (cell.boundingPlanes k) p :=
    projectPointOntoPlane_shift (cell.boundingPlanes k) p t hunit
  set fp := closestPointPolygon
    (Plane3.projectPointOntoPlane (cell.boundingPlanes k) p)
    (faceDataOf cell k).vertices (cell.boundingPlanes k)
    (faceDataOf cell k).edgeNormals (faceDataOf cell k).rotation with hfp
  have hval : distanceToCameraSquared cell p = some (Cartesian3.distanceSquared fp p) := by
    simp only [distanceToCameraSquared, distanceToCameraCase, hs1]
  have hval' : distanceToCameraSquared cell
      (Cartesian3.add p (Cartesian3.multiplyByScalar (cell.boundingPlanes k).normal t))
      = some (Cartesian3.distanceSquared fp
          (Cartesian3.add p
            (Cartesian3.multiplyByScalar (cell.boundingPlanes k).normal t))) := by
    simp only [distanceToCameraSquared, distanceToCameraCase, hs2, hproj]
  rw [hval] at hq
  rw [hval'] at hq'
  have hqe : Cartesian3.distanceSquared fp p = q := Option.some.inj hq
  have hqe' : Cartesian3.distanceSquared fp
      (Cartesian3.add p (Cartesian3.multiplyByScalar (cell.boundingPlanes k).normal t))
      = q' := Option.some.inj hq'
  have hproj0 : Plane3.getPointDistance (cell.boundingPlanes k)
      (Plane3.projectPointOntoPlane (cell.boundingPlanes k) p) = 0 :=
    projectPointOntoPlane_on_plane (cell.boundingPlanes k) p hunit
  have hfp0 : Plane3.getPointDistance (cell.boundingPlanes k) fp = 0 := by
    rcases closestPointPolygon_cases
        (Plane3.projectPointOntoPlane (cell.boundingPlanes k) p)
        (faceDataOf cell k).vertices (cell.boundingPlanes k)
        (faceDataOf cell k).edgeNormals (faceDataOf cell k).rotation with h | ⟨m, hm⟩
    · rw [hfp, h]
      exact hproj0
    · rw [hfp, hm]
      exact closestPointLineSegment_on_plane (cell.boundingPlanes k) _ _ _
        (hface m) (hface _)
  have hsd : greaterThan (Plane3.getPointDistance (cell.boundingPlanes k) p) 0 EPSILON14 :=
    (hsel k).mpr rfl
  have hsdpos : 0 < Plane3.getPointDistance (cell.boundingPlanes k) p := by
    have heps : (0 : ℚ) < EPSILON14 := by norm_num [EPSILON14]
    simp only [greaterThan] at hsd
    linarith
  have hdiff := distSq_shift fp p (cell.boundingPlanes k).normal t
  rw [hunit] at hdiff
  have hdots : Cartesian3.dot (cell.boundingPlanes k).normal p
      - Cartesian3.dot (cell.boundingPlanes k).normal fp
      = Plane3.getPointDistance (cell.boundingPlanes k) p
        - Plane3.getPointDistance (cell.boundingPlanes k) fp := by
    simp only [Plane3.getPointDistance]
    ring
  rw [hdots, hfp0, sub_zero] at hdiff
  rw [← hqe, ← hqe']
  nlinarith [mul_pos ht hsdpos, mul_pos ht ht]

/-- Literal value of the Fin 4 numeral 0 as a natural number. -/
theorem fin4_val_0 : ((0 : Fin 4) : ℕ) = 0 := rfl

/-- Literal value of the Fin 4 numeral 1 as a natural number. -/
theorem fin4_val_1 : ((1 : Fin 4) : ℕ) = 1 := rfl

/-- Literal value of the Fin 4 numeral 2 as a natural number. -/
theorem fin4_val_2 : ((2 : Fin 4) : ℕ) = 2 := rfl

/-- Literal value of the Fin 4 numeral 3 as a natural number. -/
theorem fin4_val_3 : ((3 : Fin 4) : ℕ) = 3 := rfl

/-- Witness for c9_outward_monotone: the box volume with k the top plane,
p = (1/2, 1/2, 2) above the middle of the top face, t = 1; the squared
distance grows from 1 to 4. -/
theorem c9_witness : (1 : ℚ) < 4 :=
  c9_outward_monotone boxVol ⟨1/2, 1/2, 2⟩ 0 1 1 4
    (by norm_num [boxVol, boxPlanes, Cartesian3.dot, List.get])
    (by
      intro i
      fin_cases i <;>
        norm_num [boxVol, boxPlanes, boxVertices, faceDataOf, faceQuad,
          Plane3.getPointDistance, Cartesian3.dot, List.get])
    (by
      intro j
      fin_cases j <;>
        norm_num [boxVol, boxPlanes, greaterThan, Plane3.getPointDistance,
          Cartesian3.dot, EPSILON14, Fin.ext_iff, List.get])
    (by
      intro j
      fin_cases j <;>
        norm_num [boxVol, boxPlanes, greaterThan, Plane3.getPointDistance,
          Cartesian3.dot, Cartesian3.add, Cartesian3.multiplyByScalar, EPSILON14,
          Fin.ext_iff, List.get])
    (by norm_num)
    (by
      have hsel : selectedPlaneIndices boxVol ⟨1/2, 1/2, 2⟩ = [0] := by
        norm_num [selectedPlaneIndices, greaterThan, Plane3.getPointDistance,
          Cartesian3.dot, EPSILON14, boxVol, boxPlanes, List.get]
      simp only [distanceToCameraSquared, distanceToCameraCase, hsel]
      norm_num [boxVol, boxPlanes, boxVertices, boxEdgeNormals, faceDataOf, faceQuad,
        closestPointPolygon, closestPointPolygonStep, closestPointLineSegment,
        Plane3.projectPointOntoPlane, Plane3.fromPointNormal, Plane3.getPointDistance,
        Cartesian3.dot, Cartesian3.subtract, Cartesian3.multiplyByScalar,
        Cartesian3.distanceSquared, Fin.ext_iff, fin4_val_0, fin4_val_1, fin4_val_2,
        fin4_val_3, List.foldl, List.get])
    (by
      have hsel : selectedPlaneIndices boxVol
          (Cartesian3.add ⟨1/2, 1/2, 2⟩
            (Cartesian3.multiplyByScalar (boxVol.boundingPlanes 0).normal 1)) = [0] := by
        norm_num [selectedPlaneIndices, greaterThan, Plane3.getPointDistance,
          Cartesian3.dot, Cartesian3.add, Cartesian3.multiplyByScalar, EPSILON14,
          boxVol, boxPlanes, List.get]
      simp only [distanceToCameraSquared, distanceToCameraCase, hsel]
      norm_num [boxVol, boxPlanes, boxVertices, boxEdgeNormals, faceDataOf, faceQuad,
        closestPointPolygon, closestPointPolygonStep, closestPointLineSegment,
        Plane3.projectPointOntoPlane, Plane3.fromPointNormal, Plane3.getPointDistance,
        Cartesian3.dot, Cartesian3.subtract, Cartesian3.add, Cartesian3.multiplyByScalar,
        Cartesian3.distanceSquared, Fin.ext_iff, fin4_val_0, fin4_val_1, fin4_val_2,
        fin4_val_3, List.foldl, List.get])

/-- Witness for c5_computeIntersection: the three coordinate planes
x = 1, y = 2, z = 3 (unit normals, determinant 1) meet exactly at
(1, 2, 3), and computeIntersection finds that point. -/
theorem c5_witness :
    Plane3.getPointDistance ⟨⟨1, 0, 0⟩, -1⟩
        (computeIntersection ⟨⟨1, 0, 0⟩, -1⟩ ⟨⟨0, 1, 0⟩, -2⟩ ⟨⟨0, 0, 1⟩, -3⟩) = 0
    ∧ (⟨1, 2, 3⟩ : Cartesian3)
        = computeIntersection ⟨⟨1, 0, 0⟩, -1⟩ ⟨⟨0, 1, 0⟩, -2⟩ ⟨⟨0, 0, 1⟩, -3⟩ :=
  ⟨(c5_computeIntersection ⟨⟨1, 0, 0⟩, -1⟩ ⟨⟨0, 1, 0⟩, -2⟩ ⟨⟨0, 0, 1⟩, -3⟩ ⟨1, 2, 3⟩
      (by norm_num [Cartesian3.dot]) (by norm_num [Cartesian3.dot])
      (by norm_num [Cartesian3.dot]) (by norm_num [det3])).1.1,
   (c5_computeIntersection ⟨⟨1, 0, 0⟩, -1⟩ ⟨⟨0, 1, 0⟩, -2⟩ ⟨⟨0, 0, 1⟩, -3⟩ ⟨1, 2, 3⟩
      (by norm_num [Cartesian3.dot]) (by norm_num [Cartesian3.dot])
      (by norm_num [Cartesian3.dot]) (by norm_num [det3])).2.1
    (by norm_num [Plane3.getPointDistance, Cartesian3.dot])⟩
